import Mathlib

/-!
# Verification of the rshttp2 wire-protocol core

Shallow embedding of the Rust sources of `rshttp2` (HTTP/2 endpoint runtime
with HPACK) and proofs about the embedded definitions.

Conventions of the embedding:
* Rust byte slices (`&[u8]`, `Vec<u8>`) are `List Nat` whose elements are
  below 256; machine integers are `Nat` with explicit `% 2^w` wherever the
  source can overflow.
* A Rust function that can `panic!` / fail an `assert!` / reach
  `unreachable!()` or an out-of-bounds index is embedded with an explicit
  `panic` outcome (`RRes`), so that panics are observable values.
* `Result<T, &'static str>` becomes `Except String T` (inside `RRes` when the
  same function can also panic).
-/

namespace RsHttp2

/-- Outcome of running a piece of Rust code that may panic (assertion
failure, `unreachable!()`, index out of bounds). `ok` carries the normal
return value. -/
inductive RRes (α : Type) where
  | ok (a : α)
  | panic
  deriving Repr, DecidableEq

namespace RRes

/-- Sequencing that propagates panics, mirroring Rust control flow. -/
def bind {α β : Type} : RRes α → (α → RRes β) → RRes β
  | .ok a, f => f a
  | .panic, _ => .panic

end RRes

/-! ## `src/parsers.rs`

`parse_uint::<T>(buf, n)` reads `n` big-endian octets into an unsigned
integer of bit width `w` (the width of `T`); it `assert!`s that the buffer
holds at least `n` octets. The `n == 1` fast path and the general loop
produce the same value, so both are embedded by the same fold; each shift
and or is taken modulo `2^w` as in the machine type `T`. -/

/-- Embeds `parsers::parse_uint::<T>` where `w` is the bit width of `T`.
Returns the remaining buffer and the parsed value, or panics when
`buf.len() < n` (the source `assert!`). -/
def parsersParseUint (w : Nat) (buf : List Nat) (n : Nat) : RRes (List Nat × Nat) :=
  if n ≤ buf.length then
    .ok (buf.drop n, (buf.take n).foldl (fun res b => ((res * 256) % 2 ^ w + b % 256) % 2 ^ w) 0)
  else
    .panic

/-! ## `src/serializers.rs`

`serialize_uint(buf, v, n)` converts `v` to `u64`, takes its 8 big-endian
bytes and pushes the last `n` of them (`assert!(n <= 8)`; every call site
passes a literal `n ≤ 8`, so the embedding is total). -/

/-- Embeds `serializers::serialize_uint` for a value `v` already reduced to
its `u64` image: the last `n` big-endian base-256 digits of `v`. -/
def serializersSerializeUint (v : Nat) (n : Nat) : List Nat :=
  (List.range n).map (fun i => v / 256 ^ (n - 1 - i) % 256)

/-! ## `src/settings.rs` -/

/-- The six HTTP/2 setting parameters (`SettingKey`). -/
inductive SettingKey where
  | HeaderTableSize
  | EnablePush
  | MaxConcurrentStreams
  | InitialWindowSize
  | MaxFrameSize
  | MaxHeaderListSize
  deriving Repr, DecidableEq

/-- `ALL_SETTING_KEYS`, the wire order (ids 1..6). -/
def allSettingKeys : List SettingKey :=
  [.HeaderTableSize, .EnablePush, .MaxConcurrentStreams,
   .InitialWindowSize, .MaxFrameSize, .MaxHeaderListSize]

/-- `SettingKey::from_h2_id`; `assert!(id >= 1 && id <= 6)`. -/
def SettingKey.fromH2Id (id : Nat) : RRes SettingKey :=
  if h : 1 ≤ id ∧ id ≤ 6 then
    .ok (allSettingKeys.get ⟨id - 1, by simp only [allSettingKeys, List.length]; omega⟩)
  else .panic

/-- `SettingKey::to_h2_id`. -/
def SettingKey.toH2Id : SettingKey → Nat
  | .HeaderTableSize => 1
  | .EnablePush => 2
  | .MaxConcurrentStreams => 3
  | .InitialWindowSize => 4
  | .MaxFrameSize => 5
  | .MaxHeaderListSize => 6

/-- `Settings`: the source keeps `values: [u32; 7]` with slot 0 a
placeholder; slots 1..6 hold the six parameters. -/
structure Settings where
  values : List Nat
  deriving Repr, DecidableEq

/-- `Settings::new()` with the defaults from the source. -/
def Settings.new : Settings :=
  ⟨[0, 4096, 1, 100, 65535, 16384, 2 ^ 32 - 1]⟩

/-- Slot of a key inside `values`, as matched in `Settings::get`/`set`. -/
def SettingKey.slot : SettingKey → Nat
  | .HeaderTableSize => 1
  | .EnablePush => 2
  | .MaxConcurrentStreams => 3
  | .InitialWindowSize => 4
  | .MaxFrameSize => 5
  | .MaxHeaderListSize => 6

/-- `Settings::get`. -/
def Settings.get (s : Settings) (k : SettingKey) : Nat :=
  s.values.getD k.slot 0

/-- `Settings::set`. -/
def Settings.set (s : Settings) (k : SettingKey) (v : Nat) : Settings :=
  ⟨s.values.set k.slot v⟩

/-! ## `src/error.rs` -/

/-- `ErrorCode` (RFC 7540 §7). -/
inductive ErrorCode where
  | NoError | ProtocolError | InternalError | FlowControlError
  | SettingsTimeout | StreamClosed | FrameSizeError | RefusedStream
  | Cancel | CompressionError | ConnectError | EnhanceYourCalm
  | InadequateSecurity | Http1Required
  deriving Repr, DecidableEq

/-- `ALL_ERRORS`. -/
def allErrors : List ErrorCode :=
  [.NoError, .ProtocolError, .InternalError, .FlowControlError,
   .SettingsTimeout, .StreamClosed, .FrameSizeError, .RefusedStream,
   .Cancel, .CompressionError, .ConnectError, .EnhanceYourCalm,
   .InadequateSecurity, .Http1Required]

/-- `ErrorCode::from_h2_id`; `assert!(id < ALL_ERRORS.len())`. -/
def ErrorCode.fromH2Id (id : Nat) : RRes ErrorCode :=
  if h : id < 14 then .ok (allErrors.get ⟨id, by simpa [allErrors] using h⟩)
  else .panic

/-- `ErrorCode::to_h2_id`. -/
def ErrorCode.toH2Id : ErrorCode → Nat
  | .NoError => 0 | .ProtocolError => 1 | .InternalError => 2
  | .FlowControlError => 3 | .SettingsTimeout => 4 | .StreamClosed => 5
  | .FrameSizeError => 6 | .RefusedStream => 7 | .Cancel => 8
  | .CompressionError => 9 | .ConnectError => 10 | .EnhanceYourCalm => 11
  | .InadequateSecurity => 12 | .Http1Required => 13

/-- `ErrorLevel`. -/
inductive ErrorLevel where
  | StreamLevel
  | ConnectionLevel
  deriving Repr, DecidableEq

/-- `Error::new` keeps (level, code, message); the message formatting is
irrelevant to the claims, we keep the raw message. -/
structure H2Error where
  level : ErrorLevel
  code : ErrorCode
  message : String
  deriving Repr, DecidableEq

/-! ## `src/frames.rs`: `FrameHeader` -/

/-- `FrameHeader`: `body_len: usize`, `frame_type: u8`, `flags: u8`,
`stream_id: u32`. -/
structure FrameHeader where
  body_len : Nat
  frame_type : Nat
  flags : Nat
  stream_id : Nat
  deriving Repr, DecidableEq

/-- `FrameHeader::parse`: `assert!(buf.len() == 9)`, then a 3-octet
big-endian `body_len` (`usize`), one `frame_type` octet, one `flags` octet
and a 4-octet big-endian `stream_id` (`u32`, no masking of the reserved
top bit anywhere in the source). -/
def FrameHeader.parse (buf : List Nat) : RRes FrameHeader :=
  if buf.length = 9 then
    (parsersParseUint 64 buf 3).bind fun (buf, body_len) =>
    match buf with
    | frame_type :: flags :: buf =>
        (parsersParseUint 32 buf 4).bind fun (_, stream_id) =>
        .ok ⟨body_len, frame_type % 256, flags % 256, stream_id⟩
    | _ => .panic
  else .panic

/-- `FrameHeader::serialize`: 3 octets of `body_len as u32`, the type and
flag octets, 4 octets of `stream_id` (written unchanged). -/
def FrameHeader.serialize (h : FrameHeader) : List Nat :=
  serializersSerializeUint (h.body_len % 2 ^ 32) 3
    ++ [h.frame_type % 256, h.flags % 256]
    ++ serializersSerializeUint (h.stream_id % 2 ^ 32) 4

/-! ## `src/hpack/mod.rs` / `src/hpack/int.rs`: prefix-coded integers

Both files contain the identical `parse_uint(input, prefix_bits)`. The
continuation loop stores each masked octet into a stack buffer
`buf: [u8; 10]` at position `buf_len` BEFORE incrementing and checking
`buf_len > buf.len()`; writing at position 10 is an out-of-bounds index and
panics, so the `"corrupted data."` branch sits after a write that already
panicked and is unreachable. The embedding keeps both the (dead) check and
the panic. -/

/-- Result of the hpack `parse_uint`: success with the remaining input and
the `u64` value, a recoverable error string, or a panic. -/
inductive PURes where
  | ok (rem : List Nat) (v : Nat)
  | err (msg : String)
  | panic
  deriving Repr, DecidableEq

/-- The continuation-octet loop of hpack `parse_uint`. `buf` is the list of
already-stored septets (its length is the source's `buf_len`). -/
def hpackParseUintLoop : List Nat → List Nat → PURes
  | [], _ => .err "shortage of input on deserialization."
  | byte :: rest, buf =>
    if buf.length = 10 then .panic
    else
      let buf := buf ++ [byte % 256 &&& 127]
      if buf.length > 10 then .err "corrupted data."
      else if byte % 256 &&& 128 = 0 then
        let res := buf.foldr (fun b acc => ((acc <<< 7) % 2 ^ 64) ||| b) 0
        .ok rest res
      else hpackParseUintLoop rest buf

/-- Embeds hpack `parse_uint(input, prefix_bits)`. -/
def hpackParseUint (input : List Nat) (prefix_bits : Nat) : PURes :=
  match input with
  | [] => .err "shortage of input on deserialization."
  | b :: rest =>
    let mask : Nat := (2 ^ prefix_bits - 1) % 256
    let first_byte := b % 256 &&& mask
    if first_byte < mask then .ok rest first_byte
    else
      match hpackParseUintLoop rest [] with
      | .ok rem res => .ok rem ((res + mask) % 2 ^ 64)
      | e => e

/-- Embeds hpack `serialize_uint(out, v, prefix_bits, first_byte_flags)`;
returns the octets pushed onto `out`. `v` is a `u64` value. -/
def hpackSerializeUintLoop : Nat → List Nat
  | v =>
    if h : v > 127 then
      (128 ||| (v &&& 127)) :: hpackSerializeUintLoop (v >>> 7)
    else [v &&& 127]
  decreasing_by
    simp only [Nat.shiftRight_eq_div_pow]
    exact Nat.div_lt_self (by omega) (by norm_num)

/-- Embeds hpack `serialize_uint`. -/
def hpackSerializeUint (v : Nat) (prefix_bits : Nat) (first_byte_flags : Nat) : List Nat :=
  let prefix_mask : Nat := (2 ^ prefix_bits - 1) % 256
  let flag_mask : Nat := 255 - prefix_mask
  if v < prefix_mask then
    [(v &&& prefix_mask) ||| (first_byte_flags % 256 &&& flag_mask)]
  else
    ((first_byte_flags % 256 &&& flag_mask) ||| prefix_mask)
      :: hpackSerializeUintLoop (v - prefix_mask)

/-! ## `src/hpack/huffman.rs` and the code table

The crate's Huffman code table and decode tree live in
`src/hpack/huffman_codes.rs`, which is not among the provided sources (only
its users are). Following the spec, the table is RFC 7541 Appendix B.

Modelled from the spec: `huffman_codes::RAW_TABLE` — "implements RFC 7541
Appendix B exactly"; for each of the 257 symbols (256 octets + EOS) the
entry is `(lsb, bits)`: the code value (in the low `bits` bits) and its
length. Appendix B is the canonical code determined by the code lengths
(codes assigned in increasing (length, symbol) order), the table below
lists the resulting codes explicitly; the EOS code is the all-ones 30-bit
code `0x3fffffff`, matching the encoder's all-ones padding. -/

/-- The `(lsb, bits)` code table for symbols 0..255 and EOS (= 256). -/
def huffRawTable : List (Nat × Nat) := [
  (0x1ff8, 13), (0x7fffd8, 23), (0xfffffe2, 28), (0xfffffe3, 28),
  (0xfffffe4, 28), (0xfffffe5, 28), (0xfffffe6, 28), (0xfffffe7, 28),
  (0xfffffe8, 28), (0xffffea, 24), (0x3ffffffc, 30), (0xfffffe9, 28),
  (0xfffffea, 28), (0x3ffffffd, 30), (0xfffffeb, 28), (0xfffffec, 28),
  (0xfffffed, 28), (0xfffffee, 28), (0xfffffef, 28), (0xffffff0, 28),
  (0xffffff1, 28), (0xffffff2, 28), (0x3ffffffe, 30), (0xffffff3, 28),
  (0xffffff4, 28), (0xffffff5, 28), (0xffffff6, 28), (0xffffff7, 28),
  (0xffffff8, 28), (0xffffff9, 28), (0xffffffa, 28), (0xffffffb, 28),
  (0x14, 6), (0x3f8, 10), (0x3f9, 10), (0xffa, 12),
  (0x1ff9, 13), (0x15, 6), (0xf8, 8), (0x7fa, 11),
  (0x3fa, 10), (0x3fb, 10), (0xf9, 8), (0x7fb, 11),
  (0xfa, 8), (0x16, 6), (0x17, 6), (0x18, 6),
  (0x0, 5), (0x1, 5), (0x2, 5), (0x19, 6),
  (0x1a, 6), (0x1b, 6), (0x1c, 6), (0x1d, 6),
  (0x1e, 6), (0x1f, 6), (0x5c, 7), (0xfb, 8),
  (0x7ffc, 15), (0x20, 6), (0xffb, 12), (0x3fc, 10),
  (0x1ffa, 13), (0x21, 6), (0x5d, 7), (0x5e, 7),
  (0x5f, 7), (0x60, 7), (0x61, 7), (0x62, 7),
  (0x63, 7), (0x64, 7), (0x65, 7), (0x66, 7),
  (0x67, 7), (0x68, 7), (0x69, 7), (0x6a, 7),
  (0x6b, 7), (0x6c, 7), (0x6d, 7), (0x6e, 7),
  (0x6f, 7), (0x70, 7), (0x71, 7), (0x72, 7),
  (0xfc, 8), (0x73, 7), (0xfd, 8), (0x1ffb, 13),
  (0x7fff0, 19), (0x1ffc, 13), (0x3ffc, 14), (0x22, 6),
  (0x7ffd, 15), (0x3, 5), (0x23, 6), (0x4, 5),
  (0x24, 6), (0x5, 5), (0x25, 6), (0x26, 6),
  (0x27, 6), (0x6, 5), (0x74, 7), (0x75, 7),
  (0x28, 6), (0x29, 6), (0x2a, 6), (0x7, 5),
  (0x2b, 6), (0x76, 7), (0x2c, 6), (0x8, 5),
  (0x9, 5), (0x2d, 6), (0x77, 7), (0x78, 7),
  (0x79, 7), (0x7a, 7), (0x7b, 7), (0x7ffe, 15),
  (0x7fc, 11), (0x3ffd, 14), (0x1ffd, 13), (0xffffffc, 28),
  (0xfffe6, 20), (0x3fffd2, 22), (0xfffe7, 20), (0xfffe8, 20),
  (0x3fffd3, 22), (0x3fffd4, 22), (0x3fffd5, 22), (0x7fffd9, 23),
  (0x3fffd6, 22), (0x7fffda, 23), (0x7fffdb, 23), (0x7fffdc, 23),
  (0x7fffdd, 23), (0x7fffde, 23), (0xffffeb, 24), (0x7fffdf, 23),
  (0xffffec, 24), (0xffffed, 24), (0x3fffd7, 22), (0x7fffe0, 23),
  (0xffffee, 24), (0x7fffe1, 23), (0x7fffe2, 23), (0x7fffe3, 23),
  (0x7fffe4, 23), (0x1fffdc, 21), (0x3fffd8, 22), (0x7fffe5, 23),
  (0x3fffd9, 22), (0x7fffe6, 23), (0x7fffe7, 23), (0xffffef, 24),
  (0x3fffda, 22), (0x1fffdd, 21), (0xfffe9, 20), (0x3fffdb, 22),
  (0x3fffdc, 22), (0x7fffe8, 23), (0x7fffe9, 23), (0x1fffde, 21),
  (0x7fffea, 23), (0x3fffdd, 22), (0x3fffde, 22), (0xfffff0, 24),
  (0x1fffdf, 21), (0x3fffdf, 22), (0x7fffeb, 23), (0x7fffec, 23),
  (0x1fffe0, 21), (0x1fffe1, 21), (0x3fffe0, 22), (0x1fffe2, 21),
  (0x7fffed, 23), (0x3fffe1, 22), (0x7fffee, 23), (0x7fffef, 23),
  (0xfffea, 20), (0x3fffe2, 22), (0x3fffe3, 22), (0x3fffe4, 22),
  (0x7ffff0, 23), (0x3fffe5, 22), (0x3fffe6, 22), (0x7ffff1, 23),
  (0x3ffffe0, 26), (0x3ffffe1, 26), (0xfffeb, 20), (0x7fff1, 19),
  (0x3fffe7, 22), (0x7ffff2, 23), (0x3fffe8, 22), (0x1ffffec, 25),
  (0x3ffffe2, 26), (0x3ffffe3, 26), (0x3ffffe4, 26), (0x7ffffde, 27),
  (0x7ffffdf, 27), (0x3ffffe5, 26), (0xfffff1, 24), (0x1ffffed, 25),
  (0x7fff2, 19), (0x1fffe3, 21), (0x3ffffe6, 26), (0x7ffffe0, 27),
  (0x7ffffe1, 27), (0x3ffffe7, 26), (0x7ffffe2, 27), (0xfffff2, 24),
  (0x1fffe4, 21), (0x1fffe5, 21), (0x3ffffe8, 26), (0x3ffffe9, 26),
  (0xffffffd, 28), (0x7ffffe3, 27), (0x7ffffe4, 27), (0x7ffffe5, 27),
  (0xfffec, 20), (0xfffff3, 24), (0xfffed, 20), (0x1fffe6, 21),
  (0x3fffe9, 22), (0x1fffe7, 21), (0x1fffe8, 21), (0x7ffff3, 23),
  (0x3fffea, 22), (0x3fffeb, 22), (0x1ffffee, 25), (0x1ffffef, 25),
  (0xfffff4, 24), (0xfffff5, 24), (0x3ffffea, 26), (0x7ffff4, 23),
  (0x3ffffeb, 26), (0x7ffffe6, 27), (0x3ffffec, 26), (0x3ffffed, 26),
  (0x7ffffe7, 27), (0x7ffffe8, 27), (0x7ffffe9, 27), (0x7ffffea, 27),
  (0x7ffffeb, 27), (0xffffffe, 28), (0x7ffffec, 27), (0x7ffffed, 27),
  (0x7ffffee, 27), (0x7ffffef, 27), (0x7fffff0, 27), (0x3ffffee, 26),
  (0x3fffffff, 30)

]
/-- Code length of a symbol (second component of its table entry). -/
def huffBits (sym : Nat) : Nat := (huffRawTable.getD sym (0, 0)).2

/-- Code value of a symbol (first component of its table entry). -/
def huffLsb (sym : Nat) : Nat := (huffRawTable.getD sym (0, 0)).1

/-- MSB-first bit list of width `w` for value `v` (the order in which both
the encoder emits and the decoder consumes bits). -/
def natToBits (v : Nat) : Nat → List Bool
  | 0 => []
  | w + 1 => v.testBit w :: natToBits v w

/-- The MSB-first code bits of a symbol. -/
def codeBits (sym : Nat) : List Bool := natToBits (huffLsb sym) (huffBits sym)

/-- Leaf payload of the decode tree (`Char` in the source):
a normal octet or the end-of-string symbol. -/
inductive HChar where
  | normal (c : Nat)
  | eos
  deriving Repr, DecidableEq

/-- Decode tree node (`TreeNode`). `nil` marks an absent child while the
tree is being built; the finished tree of the complete Appendix B code has
two children under every inner node, so `nil` is never reached by a walk
(the embedding maps reaching it to a panic, like the source's unwrap of a
null child). -/
inductive HTree where
  | nil
  | leaf (c : HChar)
  | node (l r : HTree)
  deriving Repr, DecidableEq

/-- Insert one code path into the decode tree. -/
def insertCode (c : HChar) : HTree → List Bool → HTree
  | _, [] => .leaf c
  | .node l r, b :: bs =>
      if b then .node l (insertCode c r bs) else .node (insertCode c l bs) r
  | _, b :: bs =>
      if b then .node .nil (insertCode c .nil bs) else .node (insertCode c .nil bs) .nil

/-- Modelled from the spec: `huffman_codes::HUFFMAN_TREE` — the binary
walking tree built from all 257 codes, "two-child inner nodes and typed
leaves \x7bNormal(u8), EoS\x7d". -/
def huffmanTree : HTree :=
  (List.range 257).foldl
    (fun t sym =>
      insertCode (if sym = 256 then .eos else .normal sym) t (codeBits sym))
    .nil

/-- One step of `HuffmanTreeWalker::advance`: from the current node take the
child selected by the bit; a leaf emits its symbol and resets the walker to
the root. `panic` corresponds to `advance` being entered at a leaf
(`unreachable!()`) or descending into an absent child. -/
inductive WalkStep where
  | emit (c : HChar) (nxt : HTree)
  | move (nxt : HTree)
  | panic
  deriving Repr, DecidableEq

/-- `HuffmanTreeWalker::advance(bit)` against root `root`. -/
def advanceStep (root : HTree) (cur : HTree) (bit : Bool) : WalkStep :=
  match cur with
  | .node l r =>
    match (if bit then r else l) with
    | .leaf c => .emit c root
    | .node l' r' => .move (.node l' r')
    | .nil => .panic
  | _ => .panic

/-- Result of the decoder's main loop over the bit stream. -/
inductive MRes where
  | ok (cur : HTree) (out : List Nat)
  | err
  | panic
  deriving Repr, DecidableEq

/-- The `for x in iter` loop of `huffman::decode`: feed every bit to the
walker; a `Normal` leaf pushes its octet, an `EoS` leaf mid-stream is the
decode error. -/
def huffMainLoop (root : HTree) : HTree → List Bool → MRes
  | cur, [] => .ok cur []
  | cur, bit :: bits =>
    match advanceStep root cur bit with
    | .emit (.normal c) nxt =>
      match huffMainLoop root nxt bits with
      | .ok cur' out => .ok cur' (c :: out)
      | e => e
    | .emit .eos _ => .err
    | .move nxt => huffMainLoop root nxt bits
    | .panic => .panic

/-- The trailing `loop` of `huffman::decode`: keep advancing with bit `1`
until a leaf appears; `EoS` accepts the padding, a `Normal` leaf is the
decode error. `none` is the panic outcome (walker at a leaf or absent
child). `padDescend` follows `1` bits from the walker's position: each
`advance(1)` moves to the right child; a leaf ends the loop. -/
def padDescend : HTree → Option Bool
  | .leaf .eos => some true
  | .leaf (.normal _) => some false
  | .node _ r => padDescend r
  | .nil => none

/-- Entry point of the trailing loop: the walker's current node is inner
(never a leaf); its under-`1`-bit child starts the descent. Any other shape
is the source's `unreachable!()`. -/
def huffPadLoop : HTree → Option Bool
  | .node _ r => padDescend r
  | _ => none

/-- MSB-first bits of one octet (`BitIterator` yields `byte & 0x80`,
shifting left, eight times). -/
def byteToBits (b : Nat) : List Bool := natToBits (b % 256) 8

/-- All bits of a byte string in stream order (`BitIterator`). -/
def bytesToBits (bs : List Nat) : List Bool := bs.flatMap byteToBits

/-- Embeds `huffman::decode`. -/
def huffmanDecode (input : List Nat) : RRes (Except String (List Nat)) :=
  match huffMainLoop huffmanTree huffmanTree (bytesToBits input) with
  | .err => .ok (.error "decode error on Huffman compressed headers.")
  | .panic => .panic
  | .ok cur out =>
    if cur = huffmanTree then .ok (.ok out)
    else
      match huffPadLoop cur with
      | some true => .ok (.ok out)
      | some false => .ok (.error "decode error on Huffman compressed headers.")
      | none => .panic

/-- Value of an MSB-first bit list. -/
def natOfBits (bs : List Bool) : Nat :=
  bs.foldl (fun acc b => 2 * acc + (if b then 1 else 0)) 0

/-- Decidable check used to verify the decoder's padding acceptance for
one padding width `k`: the main loop over `k` one-bits emits nothing, ends
off the root, and the trailing descent accepts with EOS. -/
def padOk (k : Nat) : Bool :=
  match huffMainLoop huffmanTree huffmanTree (List.replicate k true) with
  | .ok cur out =>
    out.isEmpty && (if cur = huffmanTree then false else true) &&
      (huffPadLoop cur == some true)
  | _ => false

/-- The `while remaining_bits >= BYTE_WIDTH` drain of `huffman::encode`:
the source keeps pending bits left-aligned in a `u64` accumulator and chops
whole octets off its top; the embedding carries the pending bits as a list
(`chop_head` = take 8 / drop 8). -/
def encodeDrain : List Bool → List Nat × List Bool
  | b0 :: b1 :: b2 :: b3 :: b4 :: b5 :: b6 :: b7 :: rest =>
    (natOfBits [b0, b1, b2, b3, b4, b5, b6, b7] :: (encodeDrain rest).1,
      (encodeDrain rest).2)
  | buf => ([], buf)

/-- The per-octet loop of `huffman::encode`: drain whole octets, then append
the code bits of the next input octet (`buf |= lsb << (64 - remaining - bits)`
appends the code's MSB-first bits after the pending bits). Returns the
emitted octets and the pending bits at loop exit. -/
def encodeLoop : List Nat → List Bool → List Nat × List Bool
  | [], buf => encodeDrain buf
  | c :: cs, buf =>
    ((encodeDrain buf).1 ++
        (encodeLoop cs ((encodeDrain buf).2 ++ codeBits (c % 256))).1,
      (encodeLoop cs ((encodeDrain buf).2 ++ codeBits (c % 256))).2)

/-- Embeds `huffman::encode`: after the loop, a non-empty remainder of
fewer than eight pending bits is padded with ones
(`buf |= (1 << (64 - remaining_bits)) - 1`) and emitted as the final octet. -/
def huffmanEncode (input : List Nat) : List Nat :=
  if (encodeLoop input []).2.length > 0 then
    (encodeLoop input []).1 ++
      [natOfBits ((encodeLoop input []).2 ++
        List.replicate (8 - (encodeLoop input []).2.length) true)]
  else (encodeLoop input []).1

/-! ## `src/hpack/static_table.rs` -/

/-- ASCII bytes of a literal (`b"..."`). -/
def bstr (s : String) : List Nat := s.data.map Char.toNat

/-- A static-table entry (`static_table::Item`). -/
structure STItem where
  name : List Nat
  value : Option (List Nat)
  deriving Repr, DecidableEq

/-- `static_table::RAW_TABLE`: a dummy slot 0 followed by the 61 entries of
RFC 7541 Appendix A, exactly as listed in the source. -/
def rawStaticTable : List STItem := [
  ⟨bstr "", none⟩,
  ⟨bstr ":authority", none⟩,
  ⟨bstr ":method", some (bstr "GET")⟩,
  ⟨bstr ":method", some (bstr "POST")⟩,
  ⟨bstr ":path", some (bstr "/")⟩,
  ⟨bstr ":path", some (bstr "/index.html")⟩,
  ⟨bstr ":scheme", some (bstr "http")⟩,
  ⟨bstr ":scheme", some (bstr "https")⟩,
  ⟨bstr ":status", some (bstr "200")⟩,
  ⟨bstr ":status", some (bstr "204")⟩,
  ⟨bstr ":status", some (bstr "206")⟩,
  ⟨bstr ":status", some (bstr "304")⟩,
  ⟨bstr ":status", some (bstr "400")⟩,
  ⟨bstr ":status", some (bstr "404")⟩,
  ⟨bstr ":status", some (bstr "500")⟩,
  ⟨bstr "accept-charset", none⟩,
  ⟨bstr "accept-encoding", some (bstr "gzip, deflate")⟩,
  ⟨bstr "accept-language", none⟩,
  ⟨bstr "accept-ranges", none⟩,
  ⟨bstr "accept", none⟩,
  ⟨bstr "access-control-allow-origin", none⟩,
  ⟨bstr "age", none⟩,
  ⟨bstr "allow", none⟩,
  ⟨bstr "authorization", none⟩,
  ⟨bstr "cache-control", none⟩,
  ⟨bstr "content-disposition", none⟩,
  ⟨bstr "content-encoding", none⟩,
  ⟨bstr "content-language", none⟩,
  ⟨bstr "content-length", none⟩,
  ⟨bstr "content-location", none⟩,
  ⟨bstr "content-range", none⟩,
  ⟨bstr "content-type", none⟩,
  ⟨bstr "cookie", none⟩,
  ⟨bstr "date", none⟩,
  ⟨bstr "etag", none⟩,
  ⟨bstr "expect", none⟩,
  ⟨bstr "expires", none⟩,
  ⟨bstr "from", none⟩,
  ⟨bstr "host", none⟩,
  ⟨bstr "if-match", none⟩,
  ⟨bstr "if-modified-since", none⟩,
  ⟨bstr "if-none-match", none⟩,
  ⟨bstr "if-range", none⟩,
  ⟨bstr "if-unmodified-since", none⟩,
  ⟨bstr "last-modified", none⟩,
  ⟨bstr "link", none⟩,
  ⟨bstr "location", none⟩,
  ⟨bstr "max-forwards", none⟩,
  ⟨bstr "proxy-authenticate", none⟩,
  ⟨bstr "proxy-authorization", none⟩,
  ⟨bstr "range", none⟩,
  ⟨bstr "referer", none⟩,
  ⟨bstr "refresh", none⟩,
  ⟨bstr "retry-after", none⟩,
  ⟨bstr "server", none⟩,
  ⟨bstr "set-cookie", none⟩,
  ⟨bstr "strict-transport-security", none⟩,
  ⟨bstr "transfer-encoding", none⟩,
  ⟨bstr "user-agent", none⟩,
  ⟨bstr "vary", none⟩,
  ⟨bstr "via", none⟩,
  ⟨bstr "www-authenticate", none⟩
]

/-! ## `src/hpack/dynamic_table.rs`

Observable state of `DynamicTable`. The arena (`Cache` of `CacheBlock`s)
only manages byte storage: sequence ids are handed out consecutively from
0 (`SeqIdGen`), and `Cache::append` is called once per id in order, so the
item with sequence id `i` is position `i` of the append log. Arena-block
unlinking (`Cache::truncate`) reclaims memory at whole-block granularity
and never removes an item that any of the embedded operations can reach
(`DynamicTable::get` guards with `seq_id_range` before touching the cache,
and `make_room` only queries ids in the live range), so the embedding keeps
the whole append log. `Cache::get(seq_id)` walks the block list and returns
`None` when the first block is still empty, a found item when the id is
at most the largest appended id, and otherwise falls off the end of the
block list into `unreachable!()` — embedded as `.unreach`. -/

/-- One logical cache entry: the interned name/value octets. -/
structure DynEntry where
  name : List Nat
  value : List Nat
  deriving Repr, DecidableEq

/-- `h2_size_from_len` / `h2_size`: RFC 7541 §4.1 size of an entry. -/
def h2Size (e : DynEntry) : Nat := e.name.length + e.value.length + 32

/-- Outcome of `Cache::get`. -/
inductive CGet where
  | found (e : DynEntry)
  | missing
  | unreach
  deriving Repr, DecidableEq

/-- `Cache::get(seq_id)` over the append log (see the section comment). -/
def cacheGet (log : List DynEntry) (seqId : Nat) : CGet :=
  if h : seqId < log.length then .found (log.get ⟨seqId, h⟩)
  else if log.isEmpty then .missing
  else .unreach

/-- `DynamicTable`: used size, byte limit, the append log (its length is
`SeqIdGen`'s next id) and the live id range. -/
structure DynamicTable where
  h2_used_size : Nat
  h2_limit_size : Nat
  log : List DynEntry
  seq_id_range : Option (Nat × Nat)
  deriving Repr, DecidableEq

/-- `DynamicTable::with_capacity`. -/
def DynamicTable.with_capacity (cap : Nat) : DynamicTable :=
  ⟨0, cap, [], none⟩

/-- `MakeRoomResult`. -/
inductive MakeRoomResult where
  | NoRoom
  | Enough
  deriving Repr, DecidableEq

/-- The eviction loop of `make_room`. Arguments `limit`, `space`,
`start_id`, `end_id` are fixed for the whole loop — in particular the loop
condition tests the ORIGINAL `start_id <= end_id`, not the advancing
`new_start_id`, exactly as in the source. `used`/`ns` are the mutating
`h2_used_size`/`new_start_id`; `todo` is the suffix `log.drop ns` of the
append log, so `Cache::get(ns)` finds an entry iff `todo` is non-empty
(when `todo = []`, `ns` exceeds every appended id and `Cache::get` reaches
`unreachable!()`; the surrounding `.unwrap()` of a `None` would panic the
same way). The `assert!(size <= self.h2_used_size)` is kept. -/
def evictLoop (limit space start_id end_id : Nat) :
    Nat → Nat → List DynEntry → RRes (Nat × Nat)
  | used, ns, todo =>
    if used + space > limit ∧ start_id ≤ end_id then
      match todo with
      | [] => .panic
      | e :: rest =>
        if h2Size e ≤ used then evictLoop limit space start_id end_id (used - h2Size e) (ns + 1) rest
        else .panic
    else .ok (used, ns)

/-- `DynamicTable::make_room(space)`. The no-live-entries fast path keeps
the source's `assert_eq!(h2_used_size, 0)` and tests
`space < h2_limit_size` (strict, as in the source). `Cache::truncate` only
unlinks arena blocks, so it does not appear in the observable state. -/
def DynamicTable.make_room (t : DynamicTable) (space : Nat) :
    RRes (MakeRoomResult × DynamicTable) :=
  match t.seq_id_range with
  | none =>
    if t.h2_used_size ≠ 0 then .panic
    else if space < t.h2_limit_size then .ok (.Enough, t) else .ok (.NoRoom, t)
  | some (start_id, end_id) =>
    (evictLoop t.h2_limit_size space start_id end_id
        t.h2_used_size start_id (t.log.drop start_id)).bind fun (used, ns) =>
    let t := { t with h2_used_size := used,
                      seq_id_range := if ns > end_id then none else some (ns, end_id) }
    if t.h2_used_size + space ≤ t.h2_limit_size then .ok (.Enough, t)
    else .ok (.NoRoom, t)

/-- `DynamicTable::prepend(name, value)`: make room, then append with the
next sequence id. `SeqIdGen::next` asserts the incremented counter stays
below `2^63`. Returns the `Item` handle as the inserted octets (`Some`) or
`None` when there was no room. -/
def DynamicTable.prepend (t : DynamicTable) (name value : List Nat) :
    RRes (Option DynEntry × DynamicTable) :=
  let size := name.length + value.length + 32
  (t.make_room size).bind fun (room, t) =>
  match room with
  | .NoRoom => .ok (none, t)
  | .Enough =>
    if t.log.length + 1 ≥ 2 ^ 63 then .panic
    else
      let seq_id := t.log.length
      let e : DynEntry := ⟨name, value⟩
      let t := { t with
        h2_used_size := t.h2_used_size + size,
        seq_id_range := match t.seq_id_range with
          | none => some (seq_id, seq_id)
          | some (s, _) => some (s, seq_id),
        log := t.log ++ [e] }
      .ok (some e, t)

/-- `DynamicTable::len`. -/
def DynamicTable.lenD (t : DynamicTable) : Nat :=
  match t.seq_id_range with
  | none => 0
  | some (s, e) => e - s + 1

/-- `DynamicTable::update_capacity(new_cap)`: records the new arena block
size (storage-only), sets the limit, and evicts via `make_room(0)`. The
`MakeRoomResult` is discarded by the source. -/
def DynamicTable.update_capacity (t : DynamicTable) (new_cap : Nat) :
    RRes DynamicTable :=
  let t := { t with h2_limit_size := new_cap }
  (t.make_room 0).bind fun (_, t) => .ok t

/-- `DynamicTable::get(index)`: `assert!(seq_id_range.is_some())` panics on
a table with no live entries; then index `i` maps to sequence id
`end - i`, out-of-range gives `None`, and the cache lookup is `unwrap`ped
(a missing entry would panic). -/
def DynamicTable.getD (t : DynamicTable) (index : Nat) : RRes (Option DynEntry) :=
  match t.seq_id_range with
  | none => .panic
  | some (start_id, end_id) =>
    if start_id + index > end_id then .ok none
    else
      match cacheGet t.log (end_id - index) with
      | .found e => .ok (some e)
      | _ => .panic

/-! ## `src/hpack/mod.rs`: string parsing and the decoder -/

/-- Panic-and-error propagating bind for `Result`-returning Rust code. -/
def exBind {α β : Type} (m : RRes (Except String α))
    (f : α → RRes (Except String β)) : RRes (Except String β) :=
  match m with
  | .panic => .panic
  | .ok (.error e) => .ok (.error e)
  | .ok (.ok a) => f a

/-- Lift a `PURes` into the common shape. -/
def puRes (r : PURes) : RRes (Except String (List Nat × Nat)) :=
  match r with
  | .ok rem v => .ok (.ok (rem, v))
  | .err m => .ok (.error m)
  | .panic => .panic

/-- Embeds `hpack::parse_string` (`mod.rs`). The source's local
`huffman_encoded` is true when the flag bit 0x80 is CLEAR, and the raw
branch is taken when it is true — two inversions that cancel: flag set
means Huffman-decode. Both are kept verbatim. Returns the remaining input
and the string octets. -/
def hpackParseString (input : List Nat) :
    RRes (Except String (List Nat × List Nat)) :=
  match input with
  | [] => .ok (.error "shortage of input on deserialization.")
  | b :: _ =>
    let huffman_encoded := b % 256 &&& 128 = 0
    exBind (puRes (hpackParseUint input 7)) fun (buf, len) =>
    if buf.length < len then .ok (.error "shortage of input on deserialization.")
    else
      let s := buf.take len
      let rem := buf.drop len
      if huffman_encoded then .ok (.ok (rem, s))
      else
        (huffmanDecode s).bind fun
          | .error m => .ok (.error m)
          | .ok v => .ok (.ok (rem, v))

/-- `hpack::Decoder`. -/
structure Decoder where
  dyntbl : DynamicTable
  deriving Repr, DecidableEq

/-- `Decoder::with_capacity`. -/
def Decoder.with_capacity (cap : Nat) : Decoder :=
  ⟨DynamicTable.with_capacity cap⟩

/-- `Decoder::get_from_static_table`: index 0 is rejected, any index beyond
the array would be a Rust index panic (the caller guards `idx < 62`). -/
def getFromStaticTable (idx : Nat) :
    RRes (Except String (List Nat × Option (List Nat))) :=
  if idx < 1 then .ok (.error "index out of space.")
  else if h : idx < rawStaticTable.length then
    let item := rawStaticTable.get ⟨idx, h⟩
    .ok (.ok (item.name, item.value))
  else .panic

/-- `Decoder::get_from_dynamic_table`: bound check against
`RAW_TABLE.len() + dyntbl.len()`, then `dyntbl.get(idx - 62).unwrap()`
(both the inner `get` panic and an unexpected `None` panic). Dynamic items
always carry a value. -/
def getFromDynamicTable (d : Decoder) (idx : Nat) :
    RRes (Except String (List Nat × Option (List Nat))) :=
  if idx ≥ 62 + d.dyntbl.lenD then .ok (.error "index out of space.")
  else
    (d.dyntbl.getD (idx - 62)).bind fun
      | some item => .ok (.ok (item.name, some item.value))
      | none => .panic

/-- `Decoder::get_from_index_table`. -/
def getFromIndexTable (d : Decoder) (idx : Nat) :
    RRes (Except String (List Nat × Option (List Nat))) :=
  if idx < 62 then getFromStaticTable idx else getFromDynamicTable d idx

/-- `DecodeResult` of `parse_header_field`. `EnhancedSlice` values are
embedded as their byte contents. -/
inductive DecodeResult where
  | Normal (name value : List Nat)
  | NeverIndex (name value raw : List Nat)
  deriving Repr, DecidableEq

/-- Embeds `Decoder::parse_header_field`. The discrimination follows the
source's `match` arm order with `check_prefix(x, (mask, val))` =
`x & mask == val`: Indexed `(0x80, 0x80)`, Literal-with-indexing
`(0xC0, 0x40)`, Literal-without-indexing `(0xF0, 0x00)`,
Literal-never-indexing `(0xF0, 0x10)`; any other first octet — including
the whole Dynamic Table Size Update range `x & 0xE0 == 0x20` — reaches
`unreachable!()`, i.e. panics. Returns remaining input, the decode result,
and the decoder (whose dynamic table the with-indexing arm mutates via
`prepend` before returning). -/
def parseHeaderField (d : Decoder) (input : List Nat) :
    RRes (Except String (List Nat × DecodeResult × Decoder)) :=
  match input with
  | [] => .ok (.error "shortage of input on deserialization.")
  | x0 :: _ =>
    let x := x0 % 256
    if x &&& 128 = 128 then
      exBind (puRes (hpackParseUint input 7)) fun (rem, idx) =>
      exBind (getFromIndexTable d idx) fun (name, value) =>
      match value with
      | none => .ok (.error "request a indexed no-value header field.")
      | some value => .ok (.ok (rem, .Normal name value, d))
    else if x &&& 192 = 64 then
      exBind (puRes (hpackParseUint input 6)) fun (rem, idx) =>
      if idx > 0 then
        exBind (getFromIndexTable d idx) fun (name, _) =>
        exBind (hpackParseString rem) fun (rem, value) =>
        (d.dyntbl.prepend name value).bind fun (_, tbl) =>
        .ok (.ok (rem, .Normal name value, ⟨tbl⟩))
      else
        exBind (hpackParseString rem) fun (rem, name) =>
        exBind (hpackParseString rem) fun (rem, value) =>
        (d.dyntbl.prepend name value).bind fun (_, tbl) =>
        .ok (.ok (rem, .Normal name value, ⟨tbl⟩))
    else if x &&& 240 = 0 then
      exBind (puRes (hpackParseUint input 4)) fun (rem, idx) =>
      if idx > 0 then
        exBind (getFromIndexTable d idx) fun (name, _) =>
        exBind (hpackParseString rem) fun (rem, value) =>
        .ok (.ok (rem, .Normal name value, d))
      else
        exBind (hpackParseString rem) fun (rem, name) =>
        exBind (hpackParseString rem) fun (rem, value) =>
        .ok (.ok (rem, .Normal name value, d))
    else if x &&& 240 = 16 then
      exBind (puRes (hpackParseUint input 4)) fun (rem, idx) =>
      if idx > 0 then
        exBind (getFromIndexTable d idx) fun (name, _) =>
        exBind (hpackParseString rem) fun (rem, value) =>
        let raw := input.take (input.length - rem.length)
        .ok (.ok (rem, .NeverIndex name value raw, d))
      else
        exBind (hpackParseString rem) fun (rem, name) =>
        exBind (hpackParseString rem) fun (rem, value) =>
        let raw := input.take (input.length - rem.length)
        .ok (.ok (rem, .NeverIndex name value raw, d))
    else .panic

/-! ## `src/frames.rs` -/

/-- `PriorityInHeadersFrame`. -/
structure PriorityInHeadersFrame where
  weight : Nat
  dependency_stream : Nat
  deriving Repr, DecidableEq

/-- `ReceivedHeadersFrame`. -/
structure ReceivedHeadersFrame where
  stream_id : Nat
  end_stream : Bool
  end_headers : Bool
  header_block : List DecodeResult
  padding : Option (List Nat)
  priority : Option PriorityInHeadersFrame
  deriving Repr, DecidableEq

/-- The header-block `while !input.is_empty()` loop of
`ReceivedHeadersFrame::parse`: each successful `parse_header_field`
consumes at least one octet, so the loop terminates; the guarded recursion
makes that explicit and the `else` branch (a parse that consumed nothing,
on which the source would loop forever) is unreachable. A parse error
becomes a connection-level `CompressionError`. -/
def headerBlockLoop (d : Decoder) (input : List Nat) :
    RRes (Except H2Error (List DecodeResult × Decoder)) :=
  match hin : input with
  | [] => .ok (.ok ([], d))
  | _ :: _ =>
    match parseHeaderField d input with
    | .panic => .panic
    | .ok (.error e) =>
      .ok (.error ⟨.ConnectionLevel, .CompressionError, e⟩)
    | .ok (.ok (rem, res, d')) =>
      if h : rem.length < input.length then
        match headerBlockLoop d' rem with
        | .panic => .panic
        | .ok (.error e) => .ok (.error e)
        | .ok (.ok (results, d'')) => .ok (.ok (res :: results, d''))
      else .panic
  termination_by input.length

/-- Embeds `ReceivedHeadersFrame::parse`. Flag octets: END_STREAM 0x1,
END_HEADERS 0x4, PADDED 0x8, PRIORITY 0x20. The pad-length octet and the
5-octet priority group are read with `parsers::parse_uint` (which panics
when the body is too short); `pad_len > body.len()` after those reads is a
connection-level ProtocolError. -/
def ReceivedHeadersFrame.parse (d : Decoder) (header : FrameHeader)
    (body : List Nat) :
    RRes (Except H2Error (ReceivedHeadersFrame × Decoder)) :=
  if header.stream_id = 0 then
    .ok (.error ⟨.ConnectionLevel, .ProtocolError,
      "ReceivedHeadersFrame associates with stream 0."⟩)
  else
    let end_stream := header.flags &&& 1 > 0
    let end_headers := header.flags &&& 4 > 0
    let padded := header.flags &&& 8 > 0
    let prioritized := header.flags &&& 32 > 0
    let step1 : RRes (List Nat × Nat) :=
      if padded then parsersParseUint 8 body 1 else .ok (body, 0)
    step1.bind fun (body, pad_len) =>
    let step2 : RRes (List Nat × Option PriorityInHeadersFrame) :=
      if prioritized then
        (parsersParseUint 32 body 4).bind fun (buf, sid) =>
        (parsersParseUint 8 buf 1).bind fun (buf, weight) =>
        .ok (buf, some ⟨weight, sid⟩)
      else .ok (body, none)
    step2.bind fun (body, priority) =>
    if pad_len > body.length then
      .ok (.error ⟨.ConnectionLevel, .ProtocolError, "Too long padding."⟩)
    else
      let head := body.take (body.length - pad_len)
      let tail := body.drop (body.length - pad_len)
      match headerBlockLoop d head with
      | .panic => .panic
      | .ok (.error e) => .ok (.error e)
      | .ok (.ok (block, d')) =>
        .ok (.ok (⟨header.stream_id, end_stream, end_headers, block,
                   if padded then some tail else none, priority⟩, d'))

/-- `PriorityFrame` (`weight: i64` always set from a `u8`). -/
structure PriorityFrame where
  my_stream_id : Nat
  dep_stream_id : Nat
  weight : Int
  deriving Repr, DecidableEq

/-- Embeds `PriorityFrame::parse`. -/
def PriorityFrame.parse (header : FrameHeader) (body : List Nat) :
    RRes (Except H2Error PriorityFrame) :=
  if header.stream_id = 0 then
    .ok (.error ⟨.ConnectionLevel, .ProtocolError,
      "PriorityFrame must be associated with a stream"⟩)
  else if body.length ≠ 5 then
    .ok (.error ⟨.StreamLevel, .FrameSizeError,
      "PriorityFrame must has a body of length 5."⟩)
  else
    (parsersParseUint 32 body 4).bind fun (body, dep_stream_id) =>
    (parsersParseUint 8 body 1).bind fun (_, weight) =>
    .ok (.ok ⟨header.stream_id, dep_stream_id, (weight : Int)⟩)

/-- `SettingsFrame`. -/
structure SettingsFrame where
  ack : Bool
  values : List (SettingKey × Nat)
  deriving Repr, DecidableEq

/-- The `while body.len() > 0` loop of `SettingsFrame::parse`: each round
reads a 16-bit identifier and a 32-bit value (`parsers::parse_uint`, whose
length assert panics on a chunk shorter than 6 — unreachable behind the
multiple-of-6 guard) and keeps identifiers 1..6. -/
def settingsValuesLoop : List Nat → RRes (List (SettingKey × Nat))
  | [] => .ok []
  | b0 :: b1 :: b2 :: b3 :: b4 :: b5 :: rest =>
    let identifier := (b0 % 256) * 256 + b1 % 256
    let value := ((((b2 % 256) * 256 + b3 % 256) * 256 + b4 % 256) * 256 + b5 % 256)
    (settingsValuesLoop rest).bind fun tail =>
    if 1 ≤ identifier ∧ identifier ≤ 6 then
      (SettingKey.fromH2Id identifier).bind fun key =>
      .ok ((key, value) :: tail)
    else .ok tail
  | _ => .panic

/-- Embeds `SettingsFrame::parse`; `assert!(header.frame_type == 4)`. -/
def SettingsFrame.parse (header : FrameHeader) (body : List Nat) :
    RRes (Except H2Error SettingsFrame) :=
  if header.frame_type ≠ 4 then .panic
  else if header.stream_id ≠ 0 then
    .ok (.error ⟨.ConnectionLevel, .ProtocolError,
      "a SETTINGS frame can only be applied to the whole connection."⟩)
  else if body.length % 6 ≠ 0 then
    .ok (.error ⟨.ConnectionLevel, .ProtocolError,
      "body length of a SETTINGS frame must be a multiple of 6 octets."⟩)
  else
    let ack := header.flags &&& 1 > 0
    (settingsValuesLoop body).bind fun values =>
    .ok (.ok ⟨ack, values⟩)

/-- Embeds `SettingsFrame::serialize`: a header with
`body_len = 6 * values.len()`, type 4, the ACK flag, stream 0, then for
each pair the 2-octet identifier and 4-octet value. -/
def SettingsFrame.serialize (f : SettingsFrame) : List Nat :=
  FrameHeader.serialize ⟨6 * f.values.length, 4, if f.ack then 1 else 0, 0⟩
    ++ f.values.flatMap (fun (k, v) =>
        serializersSerializeUint (k.toH2Id % 2 ^ 32) 2
          ++ serializersSerializeUint (v % 2 ^ 32) 4)

/-- `GoAwayFrame`. -/
structure GoAwayFrame where
  last_stream_id : Nat
  error_code : ErrorCode
  debug_info : List Nat
  deriving Repr, DecidableEq

/-- Embeds `GoAwayFrame::parse`; `assert!(header.frame_type == 7)`. The
error-code octets go through `ErrorCode::from_h2_id`, whose range assert
panics on wire codes above 13. -/
def GoAwayFrame.parse (header : FrameHeader) (body : List Nat) :
    RRes (Except H2Error GoAwayFrame) :=
  if header.frame_type ≠ 7 then .panic
  else if header.stream_id ≠ 0 then
    .ok (.error ⟨.ConnectionLevel, .ProtocolError,
      "a GOAWAY frame can only be applied to the whole connection."⟩)
  else
    (parsersParseUint 32 body 4).bind fun (buf, last_stream_id) =>
    (parsersParseUint 64 buf 4).bind fun (buf, ec) =>
    (ErrorCode.fromH2Id ec).bind fun error_code =>
    .ok (.ok ⟨last_stream_id, error_code, buf⟩)

/-- Embeds `GoAwayFrame::serialize`: the source writes a header whose
`body_len` field is the literal `0`, then appends the 4-octet
last-stream-id, the 4-octet error code and the debug tail after it. -/
def GoAwayFrame.serialize (f : GoAwayFrame) : List Nat :=
  FrameHeader.serialize ⟨0, 7, 0, 0⟩
    ++ serializersSerializeUint (f.last_stream_id % 2 ^ 32) 4
    ++ serializersSerializeUint (f.error_code.toH2Id % 2 ^ 32) 4
    ++ f.debug_info

/-- `Frame`. -/
inductive Frame where
  | headers (f : ReceivedHeadersFrame)
  | priority (f : PriorityFrame)
  | settings (f : SettingsFrame)
  | goAway (f : GoAwayFrame)
  deriving Repr, DecidableEq

/-- Embeds `Frame::parse`: dispatch on the header type; the decoder is the
connection's HPACK decoder consulted by the HEADERS arm. Unknown types are
a connection-level ProtocolError. -/
def Frame.parse (d : Decoder) (header : FrameHeader) (body : List Nat) :
    RRes (Except H2Error (Frame × Decoder)) :=
  match header.frame_type with
  | 1 =>
    (ReceivedHeadersFrame.parse d header body).bind fun
      | .error e => .ok (.error e)
      | .ok (f, d') => .ok (.ok (.headers f, d'))
  | 2 =>
    (PriorityFrame.parse header body).bind fun
      | .error e => .ok (.error e)
      | .ok f => .ok (.ok (.priority f, d))
  | 4 =>
    (SettingsFrame.parse header body).bind fun
      | .error e => .ok (.error e)
      | .ok f => .ok (.ok (.settings f, d))
  | 7 =>
    (GoAwayFrame.parse header body).bind fun
      | .error e => .ok (.error e)
      | .ok f => .ok (.ok (.goAway f, d))
  | _ => .ok (.error ⟨.ConnectionLevel, .ProtocolError, "unknown frame type"⟩)

/-- Embeds `Frame::serialize`: only Settings and GoAway are serializable;
the catch-all arm is `panic!("unknown frame type: ...")`. -/
def Frame.serialize : Frame → RRes (List Nat)
  | .settings f => .ok f.serialize
  | .goAway f => .ok f.serialize
  | _ => .panic

/-! ## `src/net.rs`: frame input and the post-preface SETTINGS exchange -/

/-- Embeds `read_frame` against a byte stream: `read_exact` of the 9-octet
header (connection-level ConnectError when the stream is shorter), header
parse, `read_exact` of exactly `body_len` octets, then `Frame::parse`.
Returns the frame, the decoder and the unconsumed stream. -/
def readFrame (d : Decoder) (input : List Nat) :
    RRes (Except H2Error (Frame × Decoder × List Nat)) :=
  if input.length < 9 then
    .ok (.error ⟨.ConnectionLevel, .ConnectError, "fail to read on connection"⟩)
  else
    (FrameHeader.parse (input.take 9)).bind fun header =>
    let rest := input.drop 9
    if rest.length < header.body_len then
      .ok (.error ⟨.ConnectionLevel, .ConnectError, "fail to read on connection"⟩)
    else
      (Frame.parse d header (rest.take header.body_len)).bind fun
        | .error e => .ok (.error e)
        | .ok (f, d') => .ok (.ok (f, d', rest.drop header.body_len))

/-- What `read_settings` did on success: the updated peer settings, the
SETTINGS-ACK it queued, the frame handed to the user callback and the
remaining stream. -/
structure ReadSettingsOut where
  remote : Settings
  acked : SettingsFrame
  dispatched : Frame
  decoder : Decoder
  rest : List Nat
  deriving Repr, DecidableEq

/-- Embeds `read_settings` (the first frame after the preface): reads one
frame; on ANY `Frame::Settings` — the source never looks at the ACK flag —
every carried value is applied to the peer settings and an empty
SETTINGS-ACK is queued; any other frame kind hits the source's
`unreachable!()`, i.e. panics. Read/parse errors propagate to the caller
(whose `map_err` only logs). -/
def readSettings (remote : Settings) (d : Decoder) (input : List Nat) :
    RRes (Except H2Error ReadSettingsOut) :=
  (readFrame d input).bind fun
    | .error e => .ok (.error e)
    | .ok (f, d', rest) =>
      match f with
      | .settings sf =>
        let remote := sf.values.foldl (fun s (kv : SettingKey × Nat) => s.set kv.1 kv.2) remote
        .ok (.ok ⟨remote, ⟨true, []⟩, .settings sf, d', rest⟩)
      | _ => .panic

/-! ## Derived definitions used by the claims -/

/-- The frame round-trip procedure of the spec's property 9, which is also
`net.rs`'s read path applied to an exact stream: serialize the frame, parse
the 9-octet header, take exactly `body_len` octets as the body, parse the
body. -/
def frameRoundTrip (d : Decoder) (f : Frame) :
    RRes (Except H2Error (Frame × Decoder)) :=
  f.serialize.bind fun bytes =>
  (FrameHeader.parse (bytes.take 9)).bind fun header =>
  Frame.parse d header ((bytes.drop 9).take header.body_len)

/-- One public dynamic-table operation (for claim 7's sequences). -/
inductive DTOp where
  | prep (name value : List Nat)
  | upd (cap : Nat)
  deriving Repr, DecidableEq

/-- Apply one operation (discarding `prepend`'s returned handle). -/
def applyOp (t : DynamicTable) : DTOp → RRes DynamicTable
  | .prep n v => (t.prepend n v).bind fun (_, t) => .ok t
  | .upd c => t.update_capacity c

/-- Run a sequence of operations, propagating panics. -/
def runOps (t : DynamicTable) : List DTOp → RRes DynamicTable
  | [] => .ok t
  | op :: ops => (applyOp t op).bind fun t => runOps t ops

/-- The retained (live) entries of a dynamic table, oldest first: the
suffix of the append log starting at the live range's start id. -/
def liveEntries (t : DynamicTable) : List DynEntry :=
  match t.seq_id_range with
  | none => []
  | some (s, _) => t.log.drop s

/-- Σ of RFC 7541 §4.1 entry sizes. -/
def sizeSum (es : List DynEntry) : Nat := (es.map h2Size).sum

/-- Structural consistency of the dynamic table (independent of the byte
limit): the live range is well formed, ends at the newest appended entry,
and the byte accounting matches the live entries. -/
def DTPre (t : DynamicTable) : Prop :=
  match t.seq_id_range with
  | none => t.h2_used_size = 0
  | some (s, e) =>
    s ≤ e ∧ e + 1 = t.log.length ∧
    t.h2_used_size = sizeSum (t.log.drop s)

/-- State invariant maintained by every operation: structural consistency
plus the accounted size respecting the byte limit. -/
def DTInv (t : DynamicTable) : Prop :=
  DTPre t ∧ t.h2_used_size ≤ t.h2_limit_size

/-- Decidable equality for `Except` results (not provided by core). -/
instance {ε α : Type} [DecidableEq ε] [DecidableEq α] : DecidableEq (Except ε α) := fun a b =>
  match a, b with
  | .error x, .error y => if h : x = y then .isTrue (h ▸ rfl) else .isFalse (by simp [h])
  | .error _, .ok _ => .isFalse (by simp)
  | .ok _, .error _ => .isFalse (by simp)
  | .ok x, .ok y => if h : x = y then .isTrue (h ▸ rfl) else .isFalse (by simp [h])

/-! ## Claim theorems -/

/-- C3: the claim says prefix-integer decoding never panics and reports
`corrupted data` once more than 10 continuation octets elapse. At the 11th
continuation octet the source writes `buf[10]` into a 10-byte buffer —
an out-of-bounds index — before its (therefore unreachable) `buf_len`
check, so decoding the input `[0x1F, 0x80 × 11]` with a 5-bit prefix
panics instead of returning the corrupted-input error. -/
theorem c3_parse_uint_panics_on_11th_continuation :
    hpackParseUint (0x1F :: List.replicate 11 0x80) 5 = .panic := by decide

/-- C2: the claim says serialized frames round-trip and the 24-bit length
field equals the number of body octets. `GoAwayFrame::serialize` writes a
header with `body_len = 0` and then appends an 8-octet body, so the length
field reads 0 while 8 octets follow; re-parsing by the claimed protocol
(9-octet header, exactly `body_len` body octets) hands `GoAwayFrame::parse`
an empty body, whose 4-octet read fails its length assert: a panic, not the
original frame. -/
theorem c2_goaway_roundtrip_broken :
    (GoAwayFrame.serialize ⟨1, .NoError, []⟩).take 3 = [0, 0, 0] ∧
    (GoAwayFrame.serialize ⟨1, .NoError, []⟩).length = 17 ∧
    frameRoundTrip (Decoder.with_capacity 4096) (.goAway ⟨1, .NoError, []⟩)
      = .panic := by
  refine ⟨by decide, by decide, by decide⟩

/-- C5: the claim says any first frame other than SETTINGS(non-ACK) yields
a connection ProtocolError and a GOAWAY(ProtocolError). Feeding a
well-formed PRIORITY frame (header `00 00 05 02 00 00 00 00 01`, body of 5
octets) as the first frame makes `read_settings` hit its `unreachable!()`
arm: the endpoint panics and no GOAWAY is produced. -/
theorem c5_first_frame_not_settings_panics :
    readSettings Settings.new (Decoder.with_capacity 4096)
      [0, 0, 5, 2, 0, 0, 0, 0, 1, 0, 0, 0, 0, 10] = .panic := by decide

/-- C4: the claim says an oversize prepend returns no handle and leaves the
table empty, and any prepend of size ≤ L returns the handle. Both fail:
(1) prepending an entry of size 132 > L = 100 onto a table holding one
entry panics — `make_room`'s eviction loop tests the stale `start_id`
instead of the advancing id, so after evicting everything it calls
`Cache::get` past the last sequence id, reaching `unreachable!()`;
(2) on the empty table an entry of size exactly L = 100 is refused
(`space < limit` is strict), returning no handle. -/
theorem c4_prepend_oversize_broken :
    ((DynamicTable.with_capacity 100).prepend [97] [98]).bind
        (fun p => p.2.prepend (List.replicate 100 97) []) = .panic ∧
    (DynamicTable.with_capacity 100).prepend (List.replicate 68 97) [] =
      .ok (none, DynamicTable.with_capacity 100) := by
  refine ⟨by decide, by decide⟩

/-- C6 counterexample: the claim says the parsed stream id is always below
`2^31`. Parsing the 9-octet header whose stream-id octets are
`80 00 00 01` yields `stream_id = 0x80000001 = 2147483649 ≥ 2^31`: the
reserved top bit is not masked. -/
theorem c6_counterexample :
    FrameHeader.parse [0, 0, 0, 0, 0, 128, 0, 0, 1] =
      .ok ⟨0, 0, 0, 2147483649⟩ ∧ ¬ 2147483649 < 2 ^ 31 := by
  refine ⟨by decide, by decide⟩

/-- C8 counterexample: the claim says `get` never fails, including on the
freshly created empty table. On `with_capacity(100)` the very first `get(0)`
fails the `assert!(seq_id_range.is_some())` — a panic, not `None`. -/
theorem c8_counterexample :
    (DynamicTable.with_capacity 100).getD 0 = .panic ∧
    (DynamicTable.with_capacity 100).getD 0 ≠ .ok none := by
  refine ⟨by decide, by decide⟩

/-- C10: `Settings::set` stores the value of its key and leaves every other
key unchanged; `values` always has the source's fixed length 7. -/
theorem c10_settings_set_get (s : Settings) (k k' : SettingKey) (v : Nat)
    (hlen : s.values.length = 7) (hne : k' ≠ k) :
    (s.set k v).get k = v ∧ (s.set k v).get k' = s.get k' := by
  obtain ⟨values⟩ := s
  rcases values with _ | ⟨a0, values⟩ <;> simp only [List.length] at hlen <;> try omega
  rcases values with _ | ⟨a1, values⟩ <;> simp only [List.length] at hlen <;> try omega
  rcases values with _ | ⟨a2, values⟩ <;> simp only [List.length] at hlen <;> try omega
  rcases values with _ | ⟨a3, values⟩ <;> simp only [List.length] at hlen <;> try omega
  rcases values with _ | ⟨a4, values⟩ <;> simp only [List.length] at hlen <;> try omega
  rcases values with _ | ⟨a5, values⟩ <;> simp only [List.length] at hlen <;> try omega
  rcases values with _ | ⟨a6, values⟩ <;> simp only [List.length] at hlen <;> try omega
  rcases values with _ | ⟨a7, values⟩ <;> simp only [List.length] at hlen <;> try omega
  cases k <;> cases k' <;>
    simp_all [Settings.set, Settings.get, SettingKey.slot]

/-- Witness for C10 at a concrete record and key pair. -/
theorem c10_settings_set_get_witness :
    (Settings.new.set .EnablePush 0).get .EnablePush = 0 ∧
    (Settings.new.set .EnablePush 0).get .MaxFrameSize =
      Settings.new.get .MaxFrameSize :=
  c10_settings_set_get Settings.new .EnablePush .MaxFrameSize 0 rfl (by decide)

set_option maxRecDepth 8192 in
/-- Octets matching the Dynamic Table Size Update discriminator
`x & 0xE0 == 0x20` match none of the four representation discriminators in
`parse_header_field` (checked over all 256 octet values). -/
theorem sizeUpdateOctet_matches_no_arm :
    ∀ b : Fin 256, b.val &&& 224 = 32 →
      ¬ b.val &&& 128 = 128 ∧ ¬ b.val &&& 192 = 64 ∧
      ¬ b.val &&& 240 = 0 ∧ ¬ b.val &&& 240 = 16 := by decide

/-- C1: the claim says a first octet matching `0x20` under mask `0xE0` is
treated as a Dynamic Table Size Update. The source's `parse_header_field`
has no arm for that discriminator: such an octet falls through all four
representation checks into `unreachable!()` and panics — no limit update,
no remaining-input return, for every decoder state and every input
starting with such an octet. -/
theorem c1_size_update_unimplemented_panics
    (d : Decoder) (b : Nat) (rest : List Nat)
    (hb : b < 256) (hm : b &&& 224 = 32) :
    parseHeaderField d (b :: rest) = .panic := by
  have h := sizeUpdateOctet_matches_no_arm ⟨b, hb⟩ hm
  simp only [parseHeaderField, Nat.mod_eq_of_lt hb]
  rw [if_neg h.1, if_neg h.2.1, if_neg h.2.2.1, if_neg h.2.2.2]

/-- Witness for C1: the single octet `0x20` panics the decoder. -/
theorem c1_size_update_unimplemented_panics_witness :
    parseHeaderField (Decoder.with_capacity 4096) [32] = .panic :=
  c1_size_update_unimplemented_panics (Decoder.with_capacity 4096) 32 []
    (by decide) (by decide)

/-- C6 (amended): `FrameHeader::parse` reads the stream id as the plain
32-bit big-endian value of the last four octets — the reserved top bit is
NOT masked off — and `FrameHeader::serialize` writes the stored fields
back unchanged (no clearing of the top bit): parse is a left inverse of
serialize for every in-range header, including stream ids with the top
bit set. -/
theorem c6_amended_no_masking :
    (∀ b0 b1 b2 b3 b4 b5 b6 b7 b8 : Nat,
      b0 < 256 → b1 < 256 → b2 < 256 → b3 < 256 → b4 < 256 →
      b5 < 256 → b6 < 256 → b7 < 256 → b8 < 256 →
      FrameHeader.parse [b0, b1, b2, b3, b4, b5, b6, b7, b8] =
        .ok ⟨(b0 * 256 + b1) * 256 + b2, b3, b4,
             ((b5 * 256 + b6) * 256 + b7) * 256 + b8⟩) ∧
    (∀ h : FrameHeader, h.body_len < 2 ^ 24 → h.frame_type < 256 →
      h.flags < 256 → h.stream_id < 2 ^ 32 →
      FrameHeader.parse h.serialize = .ok h) := by
  have hparse : ∀ b0 b1 b2 b3 b4 b5 b6 b7 b8 : Nat,
      b0 < 256 → b1 < 256 → b2 < 256 → b3 < 256 → b4 < 256 →
      b5 < 256 → b6 < 256 → b7 < 256 → b8 < 256 →
      FrameHeader.parse [b0, b1, b2, b3, b4, b5, b6, b7, b8] =
        .ok ⟨(b0 * 256 + b1) * 256 + b2, b3, b4,
             ((b5 * 256 + b6) * 256 + b7) * 256 + b8⟩ := by
    intro b0 b1 b2 b3 b4 b5 b6 b7 b8 h0 h1 h2 h3 h4 h5 h6 h7 h8
    simp only [FrameHeader.parse, parsersParseUint, List.length_cons,
      List.length_nil, List.take_succ_cons, List.take_zero,
      List.drop_succ_cons, List.drop_zero, List.foldl, RRes.bind]
    norm_num [List.take_succ_cons, List.take_zero, List.drop_succ_cons,
      List.drop_zero, List.length_cons, List.length_nil, List.foldl]
    refine ⟨by omega, by omega, by omega, by omega⟩
  refine ⟨hparse, ?_⟩
  intro h hb ht hf hs
  obtain ⟨bl, ft, fl, sid⟩ := h
  simp only [FrameHeader.body_len] at hb
  simp only [FrameHeader.frame_type] at ht
  simp only [FrameHeader.flags] at hf
  simp only [FrameHeader.stream_id] at hs
  have hser : FrameHeader.serialize ⟨bl, ft, fl, sid⟩ =
      [bl / 65536 % 256, bl / 256 % 256, bl % 256,
       ft % 256, fl % 256,
       sid / 16777216 % 256, sid / 65536 % 256,
       sid / 256 % 256, sid % 256] := by
    simp only [FrameHeader.serialize, serializersSerializeUint]
    have h3 : List.range 3 = [0, 1, 2] := rfl
    have h4 : List.range 4 = [0, 1, 2, 3] := rfl
    rw [h3, h4]
    have hbm : bl % 2 ^ 32 = bl := Nat.mod_eq_of_lt (by omega)
    have hsm : sid % 2 ^ 32 = sid := Nat.mod_eq_of_lt (by omega)
    simp only [List.map, hbm, hsm, List.cons_append, List.nil_append]
    norm_num
  rw [hser,
    hparse _ _ _ _ _ _ _ _ _
      (by omega) (by omega) (by omega) (by omega) (by omega)
      (by omega) (by omega) (by omega) (by omega)]
  simp only [RRes.ok.injEq, FrameHeader.mk.injEq]
  omega

/-- Witness for C6 (amended): a header whose stream id has the reserved
bit set survives serialize-then-parse unchanged, and a raw 9-octet buffer
with the stream-id top bit set parses without masking. -/
theorem c6_amended_no_masking_witness :
    FrameHeader.parse
        (FrameHeader.serialize ⟨8, 7, 0, 2147483653⟩) = .ok ⟨8, 7, 0, 2147483653⟩ ∧
    FrameHeader.parse [0, 0, 8, 7, 0, 128, 0, 0, 5] =
      .ok ⟨(0 * 256 + 0) * 256 + 8, 7, 0, ((128 * 256 + 0) * 256 + 0) * 256 + 5⟩ := by
  constructor
  · exact c6_amended_no_masking.2 ⟨8, 7, 0, 2147483653⟩
      (by norm_num) (by norm_num) (by norm_num) (by norm_num)
  · exact c6_amended_no_masking.1 0 0 8 7 0 128 0 0 5
      (by norm_num) (by norm_num) (by norm_num) (by norm_num) (by norm_num)
      (by norm_num) (by norm_num) (by norm_num) (by norm_num)

/-- C8 (amended): on any table whose live range is non-empty and consistent
(the range end is the newest appended entry — true of every reachable
state), `get(i)` returns the i-th newest live entry for `i < len` and
`None` for `i ≥ len`, and never panics; on a table with no live entries —
in particular the freshly created one — `get` panics on its range
assertion (see the counterexample). -/
theorem c8_amended_get_on_live_table (t : DynamicTable) (s e i : Nat)
    (hr : t.seq_id_range = some (s, e)) (hse : s ≤ e)
    (hlen : e + 1 = t.log.length) :
    t.getD i = .ok ((t.log.drop s).reverse[i]?) := by
  unfold DynamicTable.getD
  rw [hr]
  dsimp only
  by_cases hc : s + i > e
  · rw [if_pos hc, List.getElem?_eq_none]
    simp only [List.length_reverse, List.length_drop]
    omega
  · rw [if_neg hc]
    push_neg at hc
    have hrev : i < (t.log.drop s).length := by
      simp only [List.length_drop]; omega
    have hei : e - i < t.log.length := by omega
    have hgoal : (t.log.drop s).reverse[i]? = some (t.log.get ⟨e - i, hei⟩) := by
      rw [List.getElem?_reverse hrev, List.getElem?_drop]
      have harg : s + ((t.log.drop s).length - 1 - i) = e - i := by
        simp only [List.length_drop]; omega
      rw [harg, List.getElem?_eq_getElem hei]
      simp [List.get_eq_getElem]
    rw [hgoal]
    simp only [cacheGet, hei, dif_pos]

/-- Witness for C8 (amended): on the one-entry table produced by a single
prepend, `get 0` is the entry and `get 3` is `None`. -/
theorem c8_amended_get_on_live_table_witness :
    (⟨34, 100, [⟨[97], [98]⟩], some (0, 0)⟩ : DynamicTable).getD 0 =
      .ok (some ⟨[97], [98]⟩) ∧
    (⟨34, 100, [⟨[97], [98]⟩], some (0, 0)⟩ : DynamicTable).getD 3 =
      .ok none := by
  constructor
  · exact (c8_amended_get_on_live_table
      ⟨34, 100, [⟨[97], [98]⟩], some (0, 0)⟩ 0 0 0 rfl (Nat.le_refl 0)
      (by decide)).trans (by decide)
  · exact (c8_amended_get_on_live_table
      ⟨34, 100, [⟨[97], [98]⟩], some (0, 0)⟩ 0 0 3 rfl (Nat.le_refl 0)
      (by decide)).trans (by decide)

/-- Σ sizes distributes over append. -/
theorem sizeSum_append (l₁ l₂ : List DynEntry) :
    sizeSum (l₁ ++ l₂) = sizeSum l₁ + sizeSum l₂ := by
  simp [sizeSum]

/-- Σ sizes of a cons. -/
theorem sizeSum_cons (a : DynEntry) (l : List DynEntry) :
    sizeSum (a :: l) = h2Size a + sizeSum l := by
  simp [sizeSum]

/-- Specification of the eviction loop on a successful run: it evicted a
prefix of `todo`, the byte accounting followed, and on exit the requested
space fits under the limit. -/
theorem evictLoop_ok (L space s e : Nat) :
    ∀ (todo : List DynEntry) (used ns used' ns' : Nat),
      evictLoop L space s e used ns todo = .ok (used', ns') →
      used = sizeSum todo → s ≤ e →
      ∃ k, k ≤ todo.length ∧ ns' = ns + k ∧
        used' = sizeSum (todo.drop k) ∧ used' + space ≤ L := by
  intro todo
  induction todo with
  | nil =>
    intro used ns used' ns' hrun hused hse
    unfold evictLoop at hrun
    by_cases hcond : used + space > L ∧ s ≤ e
    · rw [if_pos hcond] at hrun
      dsimp only at hrun
      exact absurd hrun (by simp)
    · rw [if_neg hcond] at hrun
      cases hrun
      exact ⟨0, by simp, by omega, by simpa using hused, by omega⟩
  | cons a rest ih =>
    intro used ns used' ns' hrun hused hse
    unfold evictLoop at hrun
    by_cases hcond : used + space > L ∧ s ≤ e
    · rw [if_pos hcond] at hrun
      dsimp only at hrun
      by_cases hsz : h2Size a ≤ used
      · rw [if_pos hsz] at hrun
        obtain ⟨k, hk, hns, hu, hb⟩ :=
          ih (used - h2Size a) (ns + 1) used' ns' hrun
            (by rw [hused, sizeSum_cons]; omega) hse
        exact ⟨k + 1, by simpa using Nat.succ_le_succ hk, by omega,
          by simpa [List.drop] using hu, hb⟩
      · rw [if_neg hsz] at hrun
        exact absurd hrun (by simp)
    · rw [if_neg hcond] at hrun
      cases hrun
      exact ⟨0, by simp, by omega, by simpa using hused, by omega⟩
/-- Specification of `make_room` on a successful run: structural
consistency and the byte bound hold afterwards, the append log and the
limit are untouched, and an `Enough` verdict means the requested space fits. -/
theorem make_room_spec (t : DynamicTable) (space : Nat) (r : MakeRoomResult)
    (t' : DynamicTable) (hpre : DTPre t)
    (h : t.make_room space = .ok (r, t')) :
    DTInv t' ∧ t'.log = t.log ∧ t'.h2_limit_size = t.h2_limit_size ∧
      (r = .Enough → t'.h2_used_size + space ≤ t'.h2_limit_size) := by
  unfold DynamicTable.make_room at h
  unfold DTPre at hpre
  cases hr : t.seq_id_range with
  | none =>
    rw [hr] at h hpre
    dsimp only at h hpre
    rw [if_neg (by omega)] at h
    by_cases hsp : space < t.h2_limit_size
    · rw [if_pos hsp] at h
      cases h
      refine ⟨⟨?_, by omega⟩, rfl, rfl, fun _ => by omega⟩
      unfold DTPre
      rw [hr]
      exact hpre
    · rw [if_neg hsp] at h
      cases h
      refine ⟨⟨?_, by omega⟩, rfl, rfl, fun hc => by cases hc⟩
      unfold DTPre
      rw [hr]
      exact hpre
  | some se =>
    obtain ⟨s, e⟩ := se
    rw [hr] at h hpre
    dsimp only at h hpre
    obtain ⟨hse, hlen, hused⟩ := hpre
    cases hev : evictLoop t.h2_limit_size space s e t.h2_used_size s (t.log.drop s) with
    | panic => rw [hev] at h; exact absurd h (by simp [RRes.bind])
    | ok p =>
      obtain ⟨used', ns'⟩ := p
      rw [hev] at h
      dsimp only [RRes.bind] at h
      obtain ⟨k, hk, hns, hu, hb⟩ :=
        evictLoop_ok t.h2_limit_size space s e (t.log.drop s)
          t.h2_used_size s used' ns' hev hused hse
      have hlendrop : (t.log.drop s).length = t.log.length - s := by
        simp [List.length_drop]
      rw [if_pos (by omega : used' + space ≤ t.h2_limit_size)] at h
      cases h
      refine ⟨⟨?_, by dsimp only; omega⟩, rfl, rfl, fun _ => by dsimp only; omega⟩
      unfold DTPre
      dsimp only
      by_cases hgt : ns' > e
      · rw [if_pos hgt]
        dsimp only
        have hkfull : k = (t.log.drop s).length := by omega
        rw [hu, hkfull, List.drop_length]
        rfl
      · rw [if_neg hgt]
        dsimp only
        refine ⟨by omega, hlen, ?_⟩
        rw [hu, List.drop_drop, hns]
/-- `prepend` preserves the dynamic-table invariant. -/
theorem prepend_inv (t : DynamicTable) (n v : List Nat)
    (res : Option DynEntry) (t' : DynamicTable)
    (hinv : DTInv t) (h : t.prepend n v = .ok (res, t')) : DTInv t' := by
  unfold DynamicTable.prepend at h
  dsimp only at h
  cases hmr : t.make_room (n.length + v.length + 32) with
  | panic => rw [hmr] at h; exact absurd h (by simp [RRes.bind])
  | ok p =>
    obtain ⟨room, t₁⟩ := p
    rw [hmr] at h
    dsimp only [RRes.bind] at h
    obtain ⟨⟨hpre₁, hbound₁⟩, hlog, hlim, hen⟩ :=
      make_room_spec t _ room t₁ hinv.1 hmr
    cases room with
    | NoRoom =>
      cases h
      exact ⟨hpre₁, hbound₁⟩
    | Enough =>
      by_cases hbig : t₁.log.length + 1 ≥ 2 ^ 63
      · rw [if_pos hbig] at h
        exact absurd h (by simp)
      · rw [if_neg hbig] at h
        cases h
        have hsp := hen rfl
        constructor
        · unfold DTPre at hpre₁ ⊢
          cases hr₁ : t₁.seq_id_range with
          | none =>
            rw [hr₁] at hpre₁
            dsimp only at hpre₁ ⊢
            refine ⟨Nat.le_refl _, by simp, ?_⟩
            rw [List.drop_append_of_le_length (Nat.le_refl _), List.drop_length,
              List.nil_append, sizeSum_cons]
            simp [sizeSum, h2Size, hpre₁]
          | some se₁ =>
            obtain ⟨s₀, e₀⟩ := se₁
            rw [hr₁] at hpre₁
            dsimp only at hpre₁ ⊢
            obtain ⟨hse₀, hlen₀, hused₀⟩ := hpre₁
            refine ⟨by omega, by simp, ?_⟩
            rw [List.drop_append_of_le_length (by omega), sizeSum_append, hused₀,
              sizeSum_cons]
            simp [sizeSum, h2Size]
        · dsimp only
          omega

/-- `update_capacity` preserves the dynamic-table invariant. -/
theorem update_capacity_inv (t : DynamicTable) (c : Nat) (t' : DynamicTable)
    (hinv : DTInv t) (h : t.update_capacity c = .ok t') : DTInv t' := by
  unfold DynamicTable.update_capacity at h
  dsimp only at h
  have hpre₂ : DTPre { t with h2_limit_size := c } := hinv.1
  cases hmr : DynamicTable.make_room { t with h2_limit_size := c } 0 with
  | panic => rw [hmr] at h; exact absurd h (by simp [RRes.bind])
  | ok p =>
    obtain ⟨room, t₃⟩ := p
    rw [hmr] at h
    dsimp only [RRes.bind] at h
    cases h
    exact (make_room_spec _ 0 room _ hpre₂ hmr).1
/-- Each operation preserves the dynamic-table invariant. -/
theorem applyOp_inv (t : DynamicTable) (op : DTOp) (t' : DynamicTable)
    (hinv : DTInv t) (h : applyOp t op = .ok t') : DTInv t' := by
  cases op with
  | prep n v =>
    unfold applyOp at h
    dsimp only at h
    cases hp : t.prepend n v with
    | panic => rw [hp] at h; exact absurd h (by simp [RRes.bind])
    | ok p =>
      obtain ⟨res, t₁⟩ := p
      rw [hp] at h
      dsimp only [RRes.bind] at h
      cases h
      exact prepend_inv t n v res _ hinv hp
  | upd c =>
    unfold applyOp at h
    dsimp only at h
    exact update_capacity_inv t c t' hinv h

/-- Every table reachable by a successful run of operations satisfies the
invariant. -/
theorem runOps_inv : ∀ (ops : List DTOp) (t t' : DynamicTable),
    DTInv t → runOps t ops = .ok t' → DTInv t' := by
  intro ops
  induction ops with
  | nil =>
    intro t t' hinv h
    unfold runOps at h
    cases h
    exact hinv
  | cons op rest ih =>
    intro t t' hinv h
    unfold runOps at h
    cases hop : applyOp t op with
    | panic => rw [hop] at h; exact absurd h (by simp [RRes.bind])
    | ok t₁ =>
      rw [hop] at h
      dsimp only [RRes.bind] at h
      exact ih t₁ t' (applyOp_inv t op t₁ hinv hop) h

/-- C7: after any sequence of `prepend` / `update_capacity` operations on
`with_capacity(L)` that completes without panicking, the sum of the RFC
7541 sizes of the retained entries is at most the current byte limit, and
the retained entries are a contiguous suffix (the most recent entries) of
the full insertion sequence (`t.log`, the append log). Intermediate states
are covered because every prefix of the sequence is itself a sequence. -/
theorem c7_eviction_invariant (L : Nat) (ops : List DTOp) (t : DynamicTable)
    (h : runOps (DynamicTable.with_capacity L) ops = .ok t) :
    sizeSum (liveEntries t) ≤ t.h2_limit_size ∧
      ∃ k, liveEntries t = t.log.drop k := by
  have hinv : DTInv t := by
    refine runOps_inv ops _ t ⟨?_, ?_⟩ h
    · unfold DTPre DynamicTable.with_capacity
      rfl
    · exact Nat.zero_le _
  obtain ⟨hpre, hbound⟩ := hinv
  unfold DTPre at hpre
  unfold liveEntries
  cases hr : t.seq_id_range with
  | none =>
    rw [hr] at hpre
    dsimp only
    exact ⟨Nat.zero_le _, t.log.length, (List.drop_length _).symm⟩
  | some se =>
    obtain ⟨s, e⟩ := se
    rw [hr] at hpre
    dsimp only at hpre ⊢
    obtain ⟨hse, hlen, hused⟩ := hpre
    exact ⟨hused ▸ hbound, s, rfl⟩

/-- Witness for C7: a prepend followed by a capacity cut to 10 evicts the
entry; the final state satisfies both conclusions. -/
theorem c7_eviction_invariant_witness :
    runOps (DynamicTable.with_capacity 100)
        [.prep [97] [98], .upd 10] = .ok ⟨0, 10, [⟨[97], [98]⟩], none⟩ ∧
    (sizeSum (liveEntries ⟨0, 10, [⟨[97], [98]⟩], none⟩) ≤
        (⟨0, 10, [⟨[97], [98]⟩], none⟩ : DynamicTable).h2_limit_size ∧
      ∃ k, liveEntries ⟨0, 10, [⟨[97], [98]⟩], none⟩ =
        (⟨0, 10, [⟨[97], [98]⟩], none⟩ : DynamicTable).log.drop k) :=
  ⟨by decide,
   c7_eviction_invariant 100 [.prep [97] [98], .upd 10]
     ⟨0, 10, [⟨[97], [98]⟩], none⟩ (by decide)⟩

set_option maxRecDepth 100000 in
/-- Walking the code bits of any octet from the root emits exactly that
octet and returns to the root (checked for all 256 symbols against the
Appendix B tree). -/
theorem huffSymbol_walk : ∀ c : Fin 256,
    huffMainLoop huffmanTree huffmanTree (codeBits c.val) =
      .ok huffmanTree [c.val] := by decide

/-- The decoder's main loop splits over concatenation of bit streams. -/
theorem huffMainLoop_append (root : HTree) (bits1 : List Bool) :
    ∀ (cur : HTree) (bits2 : List Bool),
      huffMainLoop root cur (bits1 ++ bits2) =
        match huffMainLoop root cur bits1 with
        | .ok cur' out1 =>
          match huffMainLoop root cur' bits2 with
          | .ok cur'' out2 => .ok cur'' (out1 ++ out2)
          | e => e
        | e => e := by
  induction bits1 with
  | nil =>
    intro cur bits2
    simp only [List.nil_append, huffMainLoop]
    cases huffMainLoop root cur bits2 <;> simp
  | cons b bs ih =>
    intro cur bits2
    simp only [List.cons_append, huffMainLoop]
    cases hst : advanceStep root cur b with
    | emit c nxt =>
      cases c with
      | normal ch =>
        dsimp only
        rw [List.append_eq, ih nxt bits2]
        cases h1 : huffMainLoop root nxt bs with
        | ok cur' out1 =>
          dsimp only
          cases h2 : huffMainLoop root cur' bits2 <;> simp
        | err => rfl
        | panic => rfl
      | eos => rfl
    | move nxt =>
      dsimp only
      exact ih nxt bits2
    | panic => rfl

/-- Walking the concatenated code bits of a byte string from the root
emits exactly that byte string and returns to the root. -/
theorem huffMainLoop_flat : ∀ s : List Nat, (∀ b ∈ s, b < 256) →
    huffMainLoop huffmanTree huffmanTree (s.flatMap codeBits) =
      .ok huffmanTree s := by
  intro s
  induction s with
  | nil => intro _; rfl
  | cons c cs ih =>
    intro hs
    have hc : c < 256 := hs c (by simp)
    have hcs : ∀ b ∈ cs, b < 256 := fun b hb => hs b (by simp [hb])
    rw [List.flatMap_cons, huffMainLoop_append, huffSymbol_walk ⟨c, hc⟩]
    dsimp only
    rw [ih hcs]
    rfl
set_option maxRecDepth 100000 in
/-- Feeding 1..7 one-bits (the encoder's padding) from the root emits
nothing, leaves the walker off the root, and the trailing all-ones descent
then accepts with EOS (checked for each padding width). -/
theorem huffPad_walk : ∀ k : Fin 8, 0 < k.val → padOk k.val = true := by decide

/-- Packing eight bits into an octet and unpacking yields the same bits. -/
theorem byteToBits_natOfBits8 : ∀ b0 b1 b2 b3 b4 b5 b6 b7 : Bool,
    byteToBits (natOfBits [b0, b1, b2, b3, b4, b5, b6, b7]) =
      [b0, b1, b2, b3, b4, b5, b6, b7] := by decide

/-- Bit-list version of the octet pack/unpack identity. -/
theorem byteToBits_natOfBits_len8 (v : List Bool) (hv : v.length = 8) :
    byteToBits (natOfBits v) = v := by
  rcases v with _ | ⟨b0, v⟩ <;> simp only [List.length] at hv <;> try omega
  rcases v with _ | ⟨b1, v⟩ <;> simp only [List.length] at hv <;> try omega
  rcases v with _ | ⟨b2, v⟩ <;> simp only [List.length] at hv <;> try omega
  rcases v with _ | ⟨b3, v⟩ <;> simp only [List.length] at hv <;> try omega
  rcases v with _ | ⟨b4, v⟩ <;> simp only [List.length] at hv <;> try omega
  rcases v with _ | ⟨b5, v⟩ <;> simp only [List.length] at hv <;> try omega
  rcases v with _ | ⟨b6, v⟩ <;> simp only [List.length] at hv <;> try omega
  rcases v with _ | ⟨b7, v⟩ <;> simp only [List.length] at hv <;> try omega
  rcases v with _ | ⟨b8, v⟩ <;> simp only [List.length] at hv <;> try omega
  exact byteToBits_natOfBits8 b0 b1 b2 b3 b4 b5 b6 b7

/-- `bytesToBits` distributes over append. -/
theorem bytesToBits_append (l₁ l₂ : List Nat) :
    bytesToBits (l₁ ++ l₂) = bytesToBits l₁ ++ bytesToBits l₂ := by
  simp [bytesToBits]

/-- Draining emits whole octets of the pending bits and keeps the
remainder (< 8 bits). -/
theorem encodeDrain_spec : ∀ buf : List Bool,
    bytesToBits (encodeDrain buf).1 ++ (encodeDrain buf).2 = buf ∧
    (encodeDrain buf).2.length < 8 := by
  intro buf
  induction buf using encodeDrain.induct with
  | case1 b0 b1 b2 b3 b4 b5 b6 b7 rest ih =>
    obtain ⟨ih1, ih2⟩ := ih
    unfold encodeDrain
    dsimp only
    refine ⟨?_, ih2⟩
    simp only [bytesToBits, List.flatMap_cons]
    rw [byteToBits_natOfBits8]
    simp only [bytesToBits] at ih1
    simp [ih1]
  | case2 buf h =>
    unfold encodeDrain
    rcases buf with _ | ⟨c0, buf⟩
    · exact ⟨rfl, by simp⟩
    rcases buf with _ | ⟨c1, buf⟩
    · exact ⟨rfl, by simp⟩
    rcases buf with _ | ⟨c2, buf⟩
    · exact ⟨rfl, by simp⟩
    rcases buf with _ | ⟨c3, buf⟩
    · exact ⟨rfl, by simp⟩
    rcases buf with _ | ⟨c4, buf⟩
    · exact ⟨rfl, by simp⟩
    rcases buf with _ | ⟨c5, buf⟩
    · exact ⟨rfl, by simp⟩
    rcases buf with _ | ⟨c6, buf⟩
    · exact ⟨rfl, by simp⟩
    rcases buf with _ | ⟨c7, buf⟩
    · exact ⟨rfl, by simp⟩
    exact absurd rfl (h c0 c1 c2 c3 c4 c5 c6 c7 buf)
/-- The encoder loop: the emitted octets followed by the pending bits are
exactly the input bits followed by the code bits of the consumed octets,
and fewer than eight bits stay pending. -/
theorem encodeLoop_spec : ∀ (cs : List Nat) (buf : List Bool),
    bytesToBits (encodeLoop cs buf).1 ++ (encodeLoop cs buf).2 =
      buf ++ cs.flatMap (fun c => codeBits (c % 256)) ∧
    (encodeLoop cs buf).2.length < 8 := by
  intro cs
  induction cs with
  | nil =>
    intro buf
    unfold encodeLoop
    exact ⟨by simpa using (encodeDrain_spec buf).1, (encodeDrain_spec buf).2⟩
  | cons c cs ih =>
    intro buf
    unfold encodeLoop
    dsimp only
    obtain ⟨hd1, _⟩ := encodeDrain_spec buf
    obtain ⟨hl1, hl2⟩ := ih ((encodeDrain buf).2 ++ codeBits (c % 256))
    refine ⟨?_, hl2⟩
    rw [bytesToBits_append, List.append_assoc, hl1, List.flatMap_cons]
    conv_rhs => rw [← hd1]
    simp [List.append_assoc]

/-- The bit stream of an encoded byte string is the concatenated code bits
followed by fewer than eight one-bits of padding. -/
theorem encode_bits (s : List Nat) :
    ∃ k, k < 8 ∧ bytesToBits (huffmanEncode s) =
      s.flatMap (fun c => codeBits (c % 256)) ++ List.replicate k true := by
  obtain ⟨h1, h2⟩ := encodeLoop_spec s []
  simp only [List.nil_append] at h1
  unfold huffmanEncode
  by_cases hb : (encodeLoop s []).2.length > 0
  · rw [if_pos hb]
    refine ⟨8 - (encodeLoop s []).2.length, by omega, ?_⟩
    rw [bytesToBits_append]
    have hsingle : bytesToBits [natOfBits ((encodeLoop s []).2 ++
        List.replicate (8 - (encodeLoop s []).2.length) true)] =
        byteToBits (natOfBits ((encodeLoop s []).2 ++
          List.replicate (8 - (encodeLoop s []).2.length) true)) := by
      simp [bytesToBits]
    rw [hsingle, byteToBits_natOfBits_len8 _ (by simp; omega), ← List.append_assoc, h1]
  · rw [if_neg hb]
    refine ⟨0, by omega, ?_⟩
    have hnil : (encodeLoop s []).2 = [] :=
      List.eq_nil_of_length_eq_zero (by omega)
    rw [List.replicate, List.append_nil, ← h1, hnil, List.append_nil]

/-- Reducing each octet modulo 256 before taking code bits is the identity
on byte strings. -/
theorem flatMap_codeBits_mod (s : List Nat) (hs : ∀ b ∈ s, b < 256) :
    s.flatMap (fun c => codeBits (c % 256)) = s.flatMap codeBits := by
  induction s with
  | nil => rfl
  | cons c cs ih =>
    simp only [List.flatMap_cons, Nat.mod_eq_of_lt (hs c (by simp)),
      ih (fun b hb => hs b (by simp [hb]))]

/-- C9: Huffman decoding inverts Huffman encoding on every byte string;
the encoder left-pads the final partial octet with ones (the MSB prefix of
the all-ones EOS code) and the decoder accepts exactly that padding. -/
theorem c9_huffman_roundtrip (s : List Nat) (hs : ∀ b ∈ s, b < 256) :
    huffmanDecode (huffmanEncode s) = .ok (.ok s) := by
  obtain ⟨k, hk, hbits⟩ := encode_bits s
  unfold huffmanDecode
  rw [hbits, flatMap_codeBits_mod s hs, huffMainLoop_append,
    huffMainLoop_flat s hs]
  dsimp only
  rcases Nat.eq_zero_or_pos k with hk0 | hk0
  · subst hk0
    simp [huffMainLoop]
  · have hp := huffPad_walk ⟨k, hk⟩ hk0
    unfold padOk at hp
    cases hml : huffMainLoop huffmanTree huffmanTree (List.replicate k true) with
    | ok cur out =>
      rw [hml] at hp
      dsimp only at hp
      simp only [Bool.and_eq_true, List.isEmpty_iff, beq_iff_eq] at hp
      obtain ⟨⟨hout, hcur⟩, hpad⟩ := hp
      have hne : cur ≠ huffmanTree := by
        intro hEq
        rw [if_pos hEq] at hcur
        exact Bool.false_ne_true hcur
      dsimp only
      rw [hout, if_neg hne, hpad]
      simp
    | err =>
      rw [hml] at hp
      exact absurd hp (by simp)
    | panic =>
      rw [hml] at hp
      exact absurd hp (by simp)

/-- Witness for C9 at the RFC 7541 C.4.1 vector: encoding and decoding
`www.example.com` round-trips (its encoding is the RFC's
`F1E3C2E5F23A6BA0AB90F4FF`). -/
theorem c9_huffman_roundtrip_witness :
    huffmanDecode (huffmanEncode (bstr "www.example.com")) =
      .ok (.ok (bstr "www.example.com")) ∧
    huffmanEncode (bstr "www.example.com") =
      [0xF1, 0xE3, 0xC2, 0xE5, 0xF2, 0x3A, 0x6B, 0xA0, 0xAB, 0x90, 0xF4, 0xFF] :=
  ⟨c9_huffman_roundtrip (bstr "www.example.com") (by decide), by decide⟩

end RsHttp2
